import Mathlib

/-!
Verification development for the `outfit` experiment-tracking library
(`src/outfit/models.py`, `src/outfit/wardrobe.py`, `src/outfit/utils.py`).

The relational store (peewee over SQLite) is embedded shallowly: each table
is a list of row structures, appended in insertion (rowid) order.  Python
floats are modelled as exact rationals, parameter values as strings (the
`Parameter.parameter` column is a CharField, so all values are stored and
compared textually).  Python exceptions are modelled by the `PyErr` type.

Two facts about the peewee ORM are load-bearing for the embedding and are
used exactly as the library documents them:
  * `Model.create(...)` saves the new row to the database immediately
    (INSERT executed at call time), so every `add_*` method of `Wardrobe`
    writes its row at call time;
  * `instance.insert()` resolves to the classmethod `Model.insert()`,
    which merely builds a `ModelInsert` query object; since `Wardrobe.tidy`
    never executes the returned query, the `insert()` calls in `tidy` have
    no effect on the database.
-/

/-- Python exceptions that the embedded operations can raise. -/
inductive PyErr where
  | valueError
  | keyError
  | attributeError
  | indexError
  | integrityError
  | runtimeError
  deriving DecidableEq, Repr

/-- Row of the `Experiment` table (`models.py`): auto id, name, optional
comment and optional date (the source spells the column
`date_experiement`). -/
structure ExperimentRow where
  id_experiment : Nat
  experiment_name : String
  comment : Option String
  date_experiement : Option String
  deriving DecidableEq, Repr

/-- Row of the `Parameter` table (`models.py`): auto id, name, value
(CharField, hence `String`), owning experiment id (non-nullable foreign
key). -/
structure ParameterRow where
  id_parameter : Nat
  parameter_name : String
  parameter : String
  experiment : Nat
  deriving DecidableEq, Repr

/-- Row of the `Output` table (`models.py`). -/
structure OutputRow where
  id_output : Nat
  type_output : String
  path_output : String
  experiment : Nat
  deriving DecidableEq, Repr

/-- Row of the `Score` table (`models.py`): the `score` column is a
FloatField, modelled as an exact rational. -/
structure ScoreRow where
  id_score : Nat
  type_score : String
  score : ℚ
  experiment : Nat
  deriving DecidableEq, Repr

/-- Modelled from the spec: `wardrobe.py` imports a `Feature` table from
`models.py`, but `models.py` under `src/` does not declare it (and the spec
describes only the four entities).  The row shape is reconstructed from its
callers: `Wardrobe.add_feature` creates rows with a `feature_name` and an
owning `experiment`, and `get_best_scores` selects it by `experiment`. -/
structure FeatureRow where
  id_feature : Nat
  feature_name : String
  experiment : Nat
  deriving DecidableEq, Repr

/-- The relational store: one list per table, in insertion (rowid) order.
The store is append-only from the core's point of view. -/
structure Db where
  experiments : List ExperimentRow
  parameters : List ParameterRow
  outputs : List OutputRow
  scores : List ScoreRow
  features : List FeatureRow
  deriving DecidableEq, Repr

def emptyDb : Db := ⟨[], [], [], [], []⟩

/-- Next auto-assigned id for a table, as SQLite assigns rowids:
one more than the largest id in use. -/
def nextId (ids : List Nat) : Nat := ids.foldr max 0 + 1

def nextExpId (db : Db) : Nat := nextId (db.experiments.map (·.id_experiment))
def nextParamId (db : Db) : Nat := nextId (db.parameters.map (·.id_parameter))
def nextOutputId (db : Db) : Nat := nextId (db.outputs.map (·.id_output))
def nextScoreId (db : Db) : Nat := nextId (db.scores.map (·.id_score))
def nextFeatureId (db : Db) : Nat := nextId (db.features.map (·.id_feature))

/-- State of a `Wardrobe` instance (`wardrobe.py`, `__init__`): the store,
the current in-progress experiment (`self.experiment`, here its id since
the peewee instance is already saved), and the in-memory buffers of
already-created child rows (`self.parameter`, `self.output`, `self.score`,
`self.feature`), kept as lists of row ids. -/
structure Wardrobe where
  db : Db
  experiment : Option Nat
  parameter : List Nat
  output : List Nat
  score : List Nat
  feature : List Nat
  deriving DecidableEq, Repr

/-- `Wardrobe(db_path)` on a fresh database: empty tables, no experiment in
progress, empty buffers. -/
def initWardrobe : Wardrobe := ⟨emptyDb, none, [], [], [], []⟩

/-- `Wardrobe.add_experiment`: `Experiment.create(...)` inserts the row
immediately and `self.experiment` is set to the created instance.  It never
fails and does not touch the buffers. -/
def addExperiment (w : Wardrobe) (experiment_name : String)
    (comment date_experiment : Option String) : Wardrobe :=
  let i := nextExpId w.db
  { w with
    db := { w.db with
            experiments := w.db.experiments ++
              [⟨i, experiment_name, comment, date_experiment⟩] },
    experiment := some i }

/-- `Wardrobe.add_parameter`: `Parameter.create(...)` runs an INSERT at
call time.  With no experiment in progress (`self.experiment is None`) the
non-nullable foreign-key column receives NULL and SQLite rejects the
insert (`peewee.IntegrityError`), before anything is appended to the
buffer; otherwise the row is inserted and its id buffered. -/
def addParameter (w : Wardrobe) (parameter_name parameter : String) :
    Except PyErr Unit × Wardrobe :=
  match w.experiment with
  | none => (.error .integrityError, w)
  | some e =>
    let i := nextParamId w.db
    (.ok (),
     { w with
       db := { w.db with
               parameters := w.db.parameters ++ [⟨i, parameter_name, parameter, e⟩] },
       parameter := w.parameter ++ [i] })

/-- `Wardrobe.add_output`: same shape as `add_parameter`. -/
def addOutput (w : Wardrobe) (type_output path_output : String) :
    Except PyErr Unit × Wardrobe :=
  match w.experiment with
  | none => (.error .integrityError, w)
  | some e =>
    let i := nextOutputId w.db
    (.ok (),
     { w with
       db := { w.db with
               outputs := w.db.outputs ++ [⟨i, type_output, path_output, e⟩] },
       output := w.output ++ [i] })

/-- `Wardrobe.add_score`: same shape as `add_parameter`; the score value is
a float, modelled as a rational. -/
def addScore (w : Wardrobe) (type_score : String) (score : ℚ) :
    Except PyErr Unit × Wardrobe :=
  match w.experiment with
  | none => (.error .integrityError, w)
  | some e =>
    let i := nextScoreId w.db
    (.ok (),
     { w with
       db := { w.db with
               scores := w.db.scores ++ [⟨i, type_score, score, e⟩] },
       score := w.score ++ [i] })

/-- `Wardrobe.add_feature`: same shape as `add_parameter` (the `Feature`
table itself is modelled from the spec, see `FeatureRow`). -/
def addFeature (w : Wardrobe) (feature_name : String) :
    Except PyErr Unit × Wardrobe :=
  match w.experiment with
  | none => (.error .integrityError, w)
  | some e =>
    let i := nextFeatureId w.db
    (.ok (),
     { w with
       db := { w.db with
               features := w.db.features ++ [⟨i, feature_name, e⟩] },
       feature := w.feature ++ [i] })

/-- `Wardrobe.tidy`: with no experiment in progress, `self.experiment` is
`None` and `None.insert()` raises `AttributeError` on the first line, with
nothing changed.  Otherwise every `insert()` call builds a peewee query
that is never executed, so the database is untouched; the method clears the
four buffers and resets `self.experiment` to `None`. -/
def tidy (w : Wardrobe) : Except PyErr Unit × Wardrobe :=
  match w.experiment with
  | none => (.error .attributeError, w)
  | some _ =>
    (.ok (),
     { w with parameter := [], score := [], output := [], feature := [],
              experiment := none })

/-! ## Ranker: `Wardrobe.get_best_scores` -/

/-- Score rows whose `type_score` equals the requested score name
(the WHERE clause of the query in `get_best_scores`). -/
def matchingScores (db : Db) (on_score : String) : List ScoreRow :=
  db.scores.filter (fun r => r.type_score = on_score)

/-- Ascending comparison used by `ORDER BY score ASC` (`mode = 'min'`). -/
def scoreAsc (a b : ScoreRow) : Prop := a.score ≤ b.score

/-- Descending comparison used by `ORDER BY score DESC` (`mode = 'max'`). -/
def scoreDesc (a b : ScoreRow) : Prop := b.score ≤ a.score

instance : DecidableRel scoreAsc := fun a b => inferInstanceAs (Decidable (a.score ≤ b.score))
instance : DecidableRel scoreDesc := fun a b => inferInstanceAs (Decidable (b.score ≤ a.score))
instance : IsTotal ScoreRow scoreAsc := ⟨fun a b => le_total a.score b.score⟩
instance : IsTotal ScoreRow scoreDesc := ⟨fun a b => le_total b.score a.score⟩
instance : IsTrans ScoreRow scoreAsc := ⟨fun _ _ _ h1 h2 => le_trans h1 h2⟩
instance : IsTrans ScoreRow scoreDesc := ⟨fun _ _ _ h1 h2 => le_trans h2 h1⟩

/-- The matching score rows in the order produced by `ORDER BY`
(a stable sort on the score value, ascending for `'min'`, descending for
`'max'`). -/
def orderedScores (db : Db) (mode on_score : String) : List ScoreRow :=
  if mode = "min" then List.insertionSort scoreAsc (matchingScores db on_score)
  else List.insertionSort scoreDesc (matchingScores db on_score)

/-- SQLite `LIMIT n`: a negative limit means no limit, `LIMIT 0` returns
no rows, a positive limit truncates. -/
def sqlLimit (n : Int) (xs : List α) : List α :=
  if n < 0 then xs else xs.take n.toNat

/-- The structured record `get_best_scores` assembles for one selected
score row: the `Experiment` row plus every `Parameter`/`Output`/`Score`/
`Feature` row owned by that experiment id, each as its own table. -/
structure BestRecord where
  experiment : List ExperimentRow
  parameter : List ParameterRow
  output : List OutputRow
  score : List ScoreRow
  feature : List FeatureRow
  deriving DecidableEq, Repr

/-- Assembly of a `BestRecord` for one experiment id (the per-row queries
in the body of `get_best_scores`'s loop). -/
def mkRecord (db : Db) (eid : Nat) : BestRecord :=
  ⟨db.experiments.filter (fun e => e.id_experiment = eid),
   db.parameters.filter (fun p => p.experiment = eid),
   db.outputs.filter (fun o => o.experiment = eid),
   db.scores.filter (fun s => s.experiment = eid),
   db.features.filter (fun f => f.experiment = eid)⟩

/-- `Wardrobe.get_best_scores(mode, on_score, n_best)`: any mode other than
`'min'`/`'max'` raises `ValueError` before the query is built; otherwise
the matching score rows are ordered, truncated by `LIMIT n_best`, and each
selected row's experiment is expanded into its full record.  (`verbose`
only prints and is not modelled.) -/
def getBestScores (db : Db) (mode on_score : String) (n_best : Int) :
    Except PyErr (List BestRecord) :=
  if mode = "min" ∨ mode = "max" then
    .ok ((sqlLimit n_best (orderedScores db mode on_score)).map
      (fun r => mkRecord db r.experiment))
  else .error .valueError

/-! ## Cohort builder: `Wardrobe.plot_by_param` and its helpers -/

/-- Distinct elements of a list keeping the first occurrence of each, used
to model a Python `set` built from rows in query order (downstream use is
order-insensitive: the names are re-sorted before producing combinations,
and per-name value lists are queried independently). -/
def dedupFirstAux (seen : List String) : List String → List String
  | [] => []
  | x :: xs =>
    if x ∈ seen then dedupFirstAux seen xs
    else x :: dedupFirstAux (x :: seen) xs

def dedupFirst (l : List String) : List String := dedupFirstAux [] l

/-- `Wardrobe._get_params(on_param)`: queries every `parameter_name` in the
`Parameter` table, builds the set of names, then `set.remove(on_param)` and
`set.remove('exp_name')`.  On an empty table the dataframe has no columns
and `df.parameter_name` raises `AttributeError`; `set.remove` raises
`KeyError` when its argument is absent. -/
def getParams (db : Db) (on_param : String) : Except PyErr (List String) :=
  if db.parameters.isEmpty then .error .attributeError
  else
    let names := dedupFirst (db.parameters.map (fun r => r.parameter_name))
    if on_param ∈ names then
      let names1 := names.erase on_param
      if "exp_name" ∈ names1 then .ok (names1.erase "exp_name")
      else .error .keyError
    else .error .keyError

/-- Row of the dataframe built by `Wardrobe._get_experiments_score`: the
join of `Score`, `Parameter` and `Experiment` on the experiment id,
restricted to the requested score type and projected to five columns. -/
structure ExpScoreRow where
  id_experiment : Nat
  experiment_name : String
  parameter_name : String
  parameter : String
  score : ℚ
  deriving DecidableEq, Repr

/-- `Wardrobe._get_experiments_score(on_score)`: one row per
(score row, parameter row) pair of the same experiment, with the score
restricted to `type_score == on_score` (nested-loop join in table order).
When the join is empty, `pd.DataFrame` of the empty generator has no
columns and the projection `df[[...]]` raises `KeyError`. -/
def getExperimentsScore (db : Db) (on_score : String) :
    Except PyErr (List ExpScoreRow) :=
  let joined := (db.scores.filter (fun s => s.type_score = on_score)).flatMap
    (fun s => (db.parameters.filter (fun pr => pr.experiment = s.experiment)).flatMap
      (fun pr => (db.experiments.filter (fun e => e.id_experiment = pr.experiment)).map
        (fun e => ⟨e.id_experiment, e.experiment_name,
                   pr.parameter_name, pr.parameter, s.score⟩)))
  if joined.isEmpty then .error .keyError else .ok joined

/-- Distinct values ever recorded for a parameter name (the
`GROUP BY Parameter.parameter` query in `_get_parameters_combinations`),
one entry per distinct value. -/
def distinctValues (db : Db) (p : String) : List String :=
  dedupFirst ((db.parameters.filter (fun r => r.parameter_name = p)).map
    (fun r => r.parameter))

/-- Lexicographic string comparison used by Python's `sorted`. -/
def strLe (a b : String) : Prop := a ≤ b

instance : DecidableRel strLe := fun a b => inferInstanceAs (Decidable (a ≤ b))
instance : IsTotal String strLe := ⟨fun a b => le_total a b⟩
instance : IsTrans String strLe := ⟨fun _ _ _ h1 h2 => le_trans h1 h2⟩

/-- `allNames = sorted(params_)` in `_get_parameters_combinations`: the
fixed-parameter names that have at least one recorded value, sorted. -/
def allNamesOf (db : Db) (params : List String) : List String :=
  List.insertionSort strLe (params.filter (fun p => !(distinctValues db p).isEmpty))

/-- `itertools.product`, rightmost factor varying fastest. -/
def listProd : List (List String) → List (List String)
  | [] => [[]]
  | l :: ls => l.flatMap (fun v => (listProd ls).map (fun c => v :: c))

/-- The combination list enumerated by `plot_by_param`: the cross-product
of the distinct-value lists of the fixed parameters, in `allNames`
order. -/
def combosOf (db : Db) (params : List String) : List (List String) :=
  listProd ((allNamesOf db params).map (fun p => distinctValues db p))

/-- Association-list lookup (first binding wins), used both for dataframe
columns carried per row and for the grouping dict of the summarizer. -/
def lookupAssoc {α : Type} : List (String × α) → String → Option α
  | [], _ => none
  | (k, v) :: rest, n => if k = n then some v else lookupAssoc rest n

/-- Update-or-append for an association list: models `df.at[i, c] = v`
on a single row (overwrites the column if present, appends it last
otherwise). -/
def setAssoc {α : Type} : List (String × α) → String → α → List (String × α)
  | [], c, v => [(c, v)]
  | (k, w) :: rest, c, v =>
    if k = c then (k, v) :: rest else (k, w) :: setAssoc rest c v

/-- One row of the per-combination dataframes in `plot_by_param`: the three
fixed columns `id_experiment`, `experiment_name`, `score` plus the extra
string-valued columns added along the way (one per fixed parameter, and
possibly the varying parameter). -/
structure CombRow where
  id_experiment : Nat
  experiment_name : String
  score : ℚ
  extra : List (String × String)
  deriving DecidableEq, Repr

/-- A per-combination dataframe: its extra column names (in column order
after the three fixed columns) and its rows. -/
structure CombDf where
  extraCols : List String
  rows : List CombRow
  deriving DecidableEq, Repr

/-- Full column list of a per-combination dataframe. -/
def dfCols (d : CombDf) : List String :=
  ["id_experiment", "experiment_name", "score"] ++ d.extraCols

/-- One filtered frame of `plot_by_param`'s inner loop: rows of the joined
dataframe matching `parameter_name == k` and `parameter == v`, projected to
the three fixed columns, with a new constant column `k = v`. -/
def combFilterDf (allExp : List ExpScoreRow) (k v : String) : CombDf :=
  { extraCols := [k],
    rows := (allExp.filter (fun r => r.parameter_name = k ∧ r.parameter = v)).map
      (fun r => ⟨r.id_experiment, r.experiment_name, r.score, [(k, v)]⟩) }

/-- Contiguous-sublist test on character lists. -/
def charsInfix (needle : List Char) : List Char → Bool
  | [] => needle.isEmpty
  | c :: cs => needle.isPrefixOf (c :: cs) || charsInfix needle cs

/-- Substring test for `'_y' in column_name`, the criterion
`_merge_df_from_combinations` uses to drop columns after a merge. -/
def hasYsub (c : String) : Bool := charsInfix "_y".toList c.toList

/-- `pd.merge(left, right, on='id_experiment', how='inner',
suffixes=('', '_y'))` followed by dropping every column whose name contains
`'_y'`: right-hand columns that clash with a left-hand column are suffixed
and hence dropped, so the result keeps the left columns plus the
non-clashing right extras (any column whose own name contains `'_y'` is
dropped too).  Row multiplicity and order follow the nested-loop pairing on
equal `id_experiment`. -/
def innerMerge (l r : CombDf) : CombDf :=
  let keepL := l.extraCols.filter (fun c => !hasYsub c)
  let keepR := r.extraCols.filter (fun c => !(dfCols l).contains c && !hasYsub c)
  { extraCols := keepL ++ keepR,
    rows := l.rows.flatMap (fun lr =>
      (r.rows.filter (fun rr => rr.id_experiment = lr.id_experiment)).map
        (fun rr =>
          { lr with extra :=
              (lr.extra.filter (fun kv => !hasYsub kv.1)) ++
              (rr.extra.filter (fun kv => keepR.contains kv.1)) })) }

/-- The direct lookup `_merge_df_from_combinations` performs per surviving
row: the first `Parameter` row (in rowid order) named `on_param` and owned
by the given experiment id, provided the experiment row exists (the query
joins `Experiment`). -/
def fetchOnParam (db : Db) (eid : Nat) (p : String) : Option String :=
  if db.experiments.any (fun e => e.id_experiment = eid) then
    ((db.parameters.filter (fun r => r.parameter_name = p ∧ r.experiment = eid)).map
      (fun r => r.parameter)).head?
  else none

/-- Set one extra column on a row (`df_.at[i, name] = value`). -/
def setCol (r : CombRow) (c v : String) : CombRow :=
  { r with extra := setAssoc r.extra c v }

/-- The row loop of `_merge_df_from_combinations`: for each row, fetch the
varying parameter's value for that experiment and attach it as a column.
`next(iter(res))` on an empty result raises `StopIteration`, which inside
the `plot_by_param` generator surfaces as `RuntimeError` (PEP 479). -/
def attachRows (db : Db) (p : String) : List CombRow → Except PyErr (List CombRow)
  | [] => .ok []
  | r :: rest =>
    match fetchOnParam db r.id_experiment p with
    | none => .error .runtimeError
    | some v =>
      match attachRows db p rest with
      | .error e => .error e
      | .ok rest' => .ok (setCol r p v :: rest')

/-- One iteration of the merge loop for a non-first dataframe: merge, drop
suffixed columns, then walk the merged rows attaching the varying
parameter.  The assignment `df_final = df_` sits inside the row loop, so
when the merged frame has no rows `df_final` keeps its previous value. -/
def mergeStep (db : Db) (p : String) (dfF df : CombDf) : Except PyErr CombDf :=
  let d := innerMerge dfF df
  if d.rows.isEmpty then .ok dfF
  else
    match attachRows db p d.rows with
    | .error e => .error e
    | .ok rows' =>
      .ok { extraCols := if (dfCols d).contains p then d.extraCols
                         else d.extraCols ++ [p],
            rows := rows' }

/-- The merge loop of `_merge_df_from_combinations` over the second and
subsequent dataframes. -/
def mergeFold (db : Db) (p : String) (acc : CombDf) :
    List CombDf → Except PyErr CombDf
  | [] => .ok acc
  | d :: ds =>
    match mergeStep db p acc d with
    | .error e => .error e
    | .ok acc' => mergeFold db p acc' ds

/-- `Wardrobe._merge_df_from_combinations(df_list, on_param)`: `df_final`
starts as `None`, becomes the first dataframe unchanged, and is then folded
through the merge loop. -/
def mergeDfs (db : Db) (p : String) : List CombDf → Except PyErr (Option CombDf)
  | [] => .ok none
  | d :: ds =>
    match mergeFold db p d ds with
    | .error e => .error e
    | .ok r => .ok (some r)

/-- The cohort object `RunGroup(df, on_param)` (`utils.py`). -/
structure RunGroup where
  df : CombDf
  on_param : String
  deriving DecidableEq, Repr

/-- The columns `RunGroup.__init__` skips when promoting columns to
attributes. -/
def notCol (on_param : String) : List String :=
  [on_param, "score", "experiment_name", "id_experiment"]

/-- `RunGroup.__init__`: `None` has no `.columns`, so a `None` dataframe
raises `AttributeError`; otherwise every column outside `not_col` is
promoted to an attribute via `list(df[column])[0]`, which raises
`IndexError` on a dataframe with such a column but no rows. -/
def runGroupInit (md : Option CombDf) (on_param : String) :
    Except PyErr RunGroup :=
  match md with
  | none => .error .attributeError
  | some d =>
    if d.rows.isEmpty && d.extraCols.any (fun c => !(notCol on_param).contains c) then
      .error .indexError
    else .ok ⟨d, on_param⟩

/-- The body of `plot_by_param`'s loop for one combination: build one
filtered frame per fixed parameter (in `allNames` order, the insertion
order of the dict `pa`), merge them, and construct the cohort. -/
def processComb (db : Db) (on_param : String) (allExp : List ExpScoreRow)
    (allNames comb : List String) : Except PyErr RunGroup :=
  let dfs := (allNames.zip comb).map (fun kv => combFilterDf allExp kv.1 kv.2)
  match mergeDfs db on_param dfs with
  | .error e => .error e
  | .ok md => runGroupInit md on_param

/-- The generator loop of `plot_by_param`: cohorts yielded before the first
error, paired with the error that stopped the generator, if any. -/
def runCombs (db : Db) (on_param : String) (allExp : List ExpScoreRow)
    (allNames : List String) : List (List String) → List RunGroup × Option PyErr
  | [] => ([], none)
  | c :: cs =>
    match processComb db on_param allExp allNames c with
    | .error e => ([], some e)
    | .ok rg =>
      let rest := runCombs db on_param allExp allNames cs
      (rg :: rest.1, rest.2)

/-- `Wardrobe.plot_by_param(on_param, on_score)`: fixed-parameter
discovery, the score join, combination enumeration, then one cohort per
combination.  The result is the list of yielded cohorts together with the
error that aborted the generator, if any. -/
def plotByParam (db : Db) (on_param on_score : String) :
    List RunGroup × Option PyErr :=
  match getParams db on_param with
  | .error e => ([], some e)
  | .ok params =>
    match getExperimentsScore db on_score with
    | .error e => ([], some e)
    | .ok allExp =>
      runCombs db on_param allExp (allNamesOf db params) (combosOf db params)

/-! ## Cohort summarizer: `RunGroup.plot` -/

/-- Label built per row: `self.on_param + "_" + p`. -/
def mkLabel ( p v : String) : String := p ++ "_" ++ v

/-- Comparison on (label, score) pairs used by
`sorted(zip(names, scores), key=lambda x: x[0])`. -/
def labelRel (a b : String × ℚ) : Prop := a.1 ≤ b.1

instance : DecidableRel labelRel := fun a b => inferInstanceAs (Decidable (a.1 ≤ b.1))
instance : IsTotal (String × ℚ) labelRel := ⟨fun a b => le_total a.1 b.1⟩
instance : IsTrans (String × ℚ) labelRel := ⟨fun _ _ _ h1 h2 => le_trans h1 h2⟩

/-- `statistics.mean` of a list of (exact) numbers. -/
def pyMean (l : List ℚ) : ℚ := l.sum / (l.length : ℚ)

/-- `res_dict.setdefault(name, []).append(score)` on an insertion-ordered
dict. -/
def addScoreTo (d : List (String × List ℚ)) (n : String) (s : ℚ) :
    List (String × List ℚ) :=
  match d with
  | [] => [(n, [s])]
  | (k, v) :: rest =>
    if k = n then (k, v ++ [s]) :: rest else (k, v) :: addScoreTo rest n s

/-- The grouping loop of `RunGroup.plot` over the sorted (label, score)
pairs. -/
def groupScores (xs : List (String × ℚ)) : List (String × List ℚ) :=
  xs.foldl (fun d x => addScoreTo d x.1 x.2) []

/-- The plotted series of `RunGroup.plot`, computed from the rows'
(varying-parameter value, score) pairs: label each row, sort by label
(Python's `sorted` is stable; a stable sort on the label is what `sorted`
with `key=lambda x: x[0]` performs), group equal labels preserving
insertion order, then average each group. -/
def plotSeries ( p : String) (rows : List (String × ℚ)) : List (String × ℚ) :=
  let labeled := rows.map (fun r => (mkLabel p r.1, r.2))
  let sortedRes := List.insertionSort labelRel labeled
  (groupScores sortedRes).map (fun kv => (kv.1, pyMean kv.2))

/-- `RunGroup.plot`: a cohort with fewer than 2 rows produces no series
(`if len(self.df) < 2: return`); otherwise the series handed to the
plotting collaborator is `plotSeries`. -/
def runGroupPlot ( p : String) (rows : List (String × ℚ)) :
    Option (List (String × ℚ)) :=
  if rows.length < 2 then none else some (plotSeries p rows)

/-- A merged frame in which every row carries the varying-parameter column:
each row's `p` column holds exactly the value `_merge_df_from_combinations`
fetches for that row's experiment (first recorded `p` value of the
experiment). -/
def attachedOk (db : Db) (p : String) (d : CombDf) : Prop :=
  ∀ row ∈ d.rows, ∃ v, fetchOnParam db row.id_experiment p = some v ∧
    lookupAssoc row.extra p = some v

/-! ## Concrete stores used by the counterexamples and witnesses -/

/-- Two committed experiments: `exp1` has parameters
`exp_name/lr/a = exp1/0.1/1` and an `acc` score; `exp2` has parameters
`exp_name/lr/a = exp2/0.2/2` but no `acc` score, so the fixed-parameter
combination `a = 2` matches no experiment in the `acc` join. -/
def dbA : Db :=
  { experiments := [⟨1, "exp1", none, none⟩, ⟨2, "exp2", none, none⟩],
    parameters := [⟨1, "exp_name", "exp1", 1⟩, ⟨2, "lr", "0.1", 1⟩, ⟨3, "a", "1", 1⟩,
                   ⟨4, "exp_name", "exp2", 2⟩, ⟨5, "lr", "0.2", 2⟩, ⟨6, "a", "2", 2⟩],
    outputs := [],
    scores := [⟨1, "acc", 1, 1⟩],
    features := [] }

/-- The joined score/parameter dataframe of `dbA` for score `acc`. -/
def allExpA : List ExpScoreRow :=
  [⟨1, "exp1", "exp_name", "exp1", 1⟩,
   ⟨1, "exp1", "lr", "0.1", 1⟩,
   ⟨1, "exp1", "a", "1", 1⟩]

/-- A store where `lr` was recorded but no parameter named `exp_name`
ever was. -/
def dbB : Db :=
  { experiments := [⟨1, "exp1", none, none⟩],
    parameters := [⟨1, "lr", "0.1", 1⟩],
    outputs := [],
    scores := [⟨1, "acc", 1, 1⟩],
    features := [] }

/-- A store with a non-empty parameter table in which the name `lr` was
never observed. -/
def dbC : Db :=
  { experiments := [⟨1, "exp1", none, none⟩],
    parameters := [⟨1, "exp_name", "exp1", 1⟩],
    outputs := [],
    scores := [],
    features := [] }

/-- Two experiments sharing the fixed parameter value `a = 1` and both
carrying an `acc` score: `plot_by_param` completes without error. -/
def dbW : Db :=
  { experiments := [⟨1, "exp1", none, none⟩, ⟨2, "exp2", none, none⟩],
    parameters := [⟨1, "exp_name", "exp1", 1⟩, ⟨2, "lr", "0.1", 1⟩, ⟨3, "a", "1", 1⟩,
                   ⟨4, "exp_name", "exp2", 2⟩, ⟨5, "lr", "0.2", 2⟩, ⟨6, "a", "1", 2⟩],
    outputs := [],
    scores := [⟨1, "acc", 1, 1⟩, ⟨2, "acc", 2, 2⟩],
    features := [] }

/-- Three experiments with `acc` scores 9, 7, 8. -/
def db4 : Db :=
  { experiments := [⟨1, "e1", none, none⟩, ⟨2, "e2", none, none⟩, ⟨3, "e3", none, none⟩],
    parameters := [],
    outputs := [],
    scores := [⟨1, "acc", 9, 1⟩, ⟨2, "acc", 7, 2⟩, ⟨3, "acc", 8, 3⟩],
    features := [] }

/-- A single experiment with a single `acc` score. -/
def db5 : Db :=
  { experiments := [⟨1, "e1", none, none⟩],
    parameters := [],
    outputs := [],
    scores := [⟨1, "acc", 1, 1⟩],
    features := [] }

/-- Two experiments agreeing on both fixed parameters `a = 1` and `b = 1`,
with distinct `lr` values: the two-dataframe merge path of
`_merge_df_from_combinations` runs and attaches the `lr` column. -/
def dbV : Db :=
  { experiments := [⟨1, "exp1", none, none⟩, ⟨2, "exp2", none, none⟩],
    parameters := [⟨1, "exp_name", "exp1", 1⟩, ⟨2, "lr", "0.1", 1⟩,
                   ⟨3, "a", "1", 1⟩, ⟨4, "b", "1", 1⟩,
                   ⟨5, "exp_name", "exp2", 2⟩, ⟨6, "lr", "0.2", 2⟩,
                   ⟨7, "a", "1", 2⟩, ⟨8, "b", "1", 2⟩],
    outputs := [],
    scores := [⟨1, "acc", 1, 1⟩, ⟨2, "acc", 2, 2⟩],
    features := [] }

/-- The joined score/parameter dataframe of `dbV` for score `acc`. -/
def allExpV : List ExpScoreRow :=
  [⟨1, "exp1", "exp_name", "exp1", 1⟩, ⟨1, "exp1", "lr", "0.1", 1⟩,
   ⟨1, "exp1", "a", "1", 1⟩, ⟨1, "exp1", "b", "1", 1⟩,
   ⟨2, "exp2", "exp_name", "exp2", 2⟩, ⟨2, "exp2", "lr", "0.2", 2⟩,
   ⟨2, "exp2", "a", "1", 2⟩, ⟨2, "exp2", "b", "1", 2⟩]

/-- Filtered frame of `dbV` for fixed parameter `a = 1`. -/
def dfaV : CombDf := combFilterDf allExpV "a" "1"

/-- Filtered frame of `dbV` for fixed parameter `b = 1`. -/
def dfbV : CombDf := combFilterDf allExpV "b" "1"

/-- The merged frame of `dfaV` and `dfbV` with the `lr` column attached. -/
def rV : CombDf :=
  ⟨["a", "b", "lr"],
   [⟨1, "exp1", 1, [("a", "1"), ("b", "1"), ("lr", "0.1")]⟩,
    ⟨2, "exp2", 2, [("a", "1"), ("b", "1"), ("lr", "0.2")]⟩]⟩

/-- A `Wardrobe` that has begun an experiment `Mnist` (row already in the
store) and nothing else. -/
def wC1a : Wardrobe := addExperiment initWardrobe "Mnist" none none

/-- `wC1a` after `add_score('acc', 9)` and before any `tidy()`. -/
def wC1 : Wardrobe := (addScore wC1a "acc" 9).2

/-- Decidable equality on `Except`, for evaluating the embedded operations
on concrete inputs. -/
instance exceptDecEq {ε α : Type} [DecidableEq ε] [DecidableEq α] :
    DecidableEq (Except ε α) := fun x y =>
  match x, y with
  | .error a, .error b =>
    if h : a = b then isTrue (by rw [h])
    else isFalse (fun he => h (by injection he))
  | .error _, .ok _ => isFalse (fun he => Except.noConfusion he)
  | .ok _, .error _ => isFalse (fun he => Except.noConfusion he)
  | .ok a, .ok b =>
    if h : a = b then isTrue (by rw [h])
    else isFalse (fun he => h (by injection he))

/-! ## Helper lemmas -/

theorem dedupFirstAux_subset :
    ∀ (seen l : List String) (x : String), x ∈ dedupFirstAux seen l → x ∈ l := by
  intro seen l
  induction l generalizing seen with
  | nil => intro x h; simp [dedupFirstAux] at h
  | cons a as ih =>
    intro x h
    simp only [dedupFirstAux] at h
    by_cases hc : a ∈ seen
    · rw [if_pos hc] at h
      exact List.mem_cons_of_mem _ (ih seen x h)
    · rw [if_neg hc] at h
      rcases List.mem_cons.mp h with h1 | h2
      · exact h1 ▸ List.mem_cons_self _ _
      · exact List.mem_cons_of_mem _ (ih _ x h2)

theorem dedupFirst_subset (l : List String) (x : String) :
    x ∈ dedupFirst l → x ∈ l :=
  dedupFirstAux_subset [] l x

/-! ## Claim theorems -/

/-- C1: contrary to the all-or-nothing-commit reading, the rows written by
`add_experiment`/`add_score` are already visible to `get_best_scores`
before `tidy()` is ever called, and `tidy()` leaves the store exactly as it
was: on the concrete session `add_experiment('Mnist'); add_score('acc', 9)`
the score row sits in the store, `get_best_scores('max', 'acc')` returns
the full record of the uncommitted experiment, and `tidy` changes no
table. -/
theorem c1_rows_visible_before_tidy :
    (addScore wC1a "acc" 9).1 = .ok () ∧
    wC1.db.scores = [⟨1, "acc", 9, 1⟩] ∧
    getBestScores wC1.db "max" "acc" (-1) =
      .ok [⟨[⟨1, "Mnist", none, none⟩], [], [], [⟨1, "acc", 9, 1⟩], []⟩] ∧
    (tidy wC1).1 = .ok () ∧ (tidy wC1).2.db = wC1.db := by
  refine ⟨rfl, by decide, by decide, rfl, rfl⟩

/-- C5 counterexample: with `n_best = 0` the query carries `LIMIT 0` and
returns no rows, although one `acc` score row exists — a non-positive limit
of 0 does not mean "all". -/
theorem c5_limit_zero_cex :
    getBestScores db5 "max" "acc" 0 = .ok [] ∧
    (matchingScores db5 "acc").length = 1 := by
  exact ⟨by decide, by decide⟩

/-- C5 amended: for a valid mode, the number of yielded records is the full
count of matching score rows when the limit is negative (the default -1),
and `min limit count` otherwise — so `LIMIT 0` yields zero records, and a
positive limit larger than the count yields exactly the available count. -/
theorem c5_record_count (db : Db) (m mode : String) (n : Int)
    (h : mode = "min" ∨ mode = "max") :
    ∃ l, getBestScores db mode m n = .ok l ∧
      l.length = if n < 0 then (matchingScores db m).length
                 else min n.toNat (matchingScores db m).length := by
  have hok : getBestScores db mode m n =
      .ok ((sqlLimit n (orderedScores db mode m)).map
            (fun r => mkRecord db r.experiment)) := by
    rcases h with h | h <;> simp [getBestScores, h]
  refine ⟨_, hok, ?_⟩
  have hlen : (orderedScores db mode m).length = (matchingScores db m).length := by
    unfold orderedScores
    by_cases hm : mode = "min" <;>
      simp [hm, (List.perm_insertionSort _ _).length_eq]
  by_cases hn : n < 0
  · simp [sqlLimit, hn, hlen]
  · simp [sqlLimit, hn, hlen]

/-- C5 witness: at `db5` with the default limit -1 all (one) records are
returned. -/
theorem c5_record_count_witness :
    ∃ l, getBestScores db5 "max" "acc" (-1) = .ok l ∧
      l.length = if (-1 : Int) < 0 then (matchingScores db5 "acc").length
                 else min (-1 : Int).toNat (matchingScores db5 "acc").length :=
  c5_record_count db5 "acc" "max" (-1) (Or.inr rfl)

/-- C7: any mode other than `'min'` and `'max'` makes `get_best_scores`
raise `ValueError`, and the outcome does not depend on the store at all
(the failure happens before the query is built). -/
theorem c7_invalid_mode (db db' : Db) (mode on_score : String) (n : Int)
    (h1 : mode ≠ "min") (h2 : mode ≠ "max") :
    getBestScores db mode on_score n = .error .valueError ∧
    getBestScores db mode on_score n = getBestScores db' mode on_score n := by
  constructor <;> simp [getBestScores, h1, h2]

/-- C7 witness: mode `'avg'` fails identically on two different stores. -/
theorem c7_invalid_mode_witness :
    getBestScores emptyDb "avg" "acc" (-1) = .error .valueError ∧
    getBestScores emptyDb "avg" "acc" (-1) = getBestScores db5 "avg" "acc" (-1) :=
  c7_invalid_mode emptyDb db5 "avg" "acc" (-1) (by decide) (by decide)

/-- C8: with no experiment in progress, every add-* method raises
(`IntegrityError`: the non-nullable experiment foreign key receives NULL)
and `tidy` raises (`AttributeError` on `None.insert()`), and in each case
the wardrobe — its store included — is left exactly unchanged. -/
theorem c8_no_active_experiment (w : Wardrobe) (h : w.experiment = none)
    (pn pv ot op ts : String) (sv : ℚ) :
    addParameter w pn pv = (.error .integrityError, w) ∧
    addOutput w ot op = (.error .integrityError, w) ∧
    addScore w ts sv = (.error .integrityError, w) ∧
    tidy w = (.error .attributeError, w) := by
  refine ⟨?_, ?_, ?_, ?_⟩ <;> simp [addParameter, addOutput, addScore, tidy, h]

/-- C8 witness: on a fresh wardrobe every mutating call fails and changes
nothing. -/
theorem c8_no_active_experiment_witness :
    addParameter initWardrobe "lr" "0.1" = (.error .integrityError, initWardrobe) ∧
    addOutput initWardrobe "model" "/x" = (.error .integrityError, initWardrobe) ∧
    addScore initWardrobe "acc" 1 = (.error .integrityError, initWardrobe) ∧
    tidy initWardrobe = (.error .attributeError, initWardrobe) :=
  c8_no_active_experiment initWardrobe rfl "lr" "0.1" "model" "/x" "acc" 1

theorem mem_dedupFirstAux :
    ∀ (seen l : List String) (x : String), x ∈ l → x ∉ seen →
      x ∈ dedupFirstAux seen l := by
  intro seen l
  induction l generalizing seen with
  | nil => intro x h _; simp at h
  | cons a as ih =>
    intro x hx hseen
    simp only [dedupFirstAux]
    by_cases hxa : x = a
    · subst hxa
      rw [if_neg hseen]
      exact List.mem_cons_self _ _
    · rcases List.mem_cons.mp hx with h1 | h2
      · exact absurd h1 hxa
      · by_cases hc : a ∈ seen
        · rw [if_pos hc]
          exact ih seen x h2 hseen
        · rw [if_neg hc]
          refine List.mem_cons_of_mem _ (ih (a :: seen) x h2 ?_)
          intro hmem
          rcases List.mem_cons.mp hmem with h3 | h4
          · exact hxa h3
          · exact hseen h4

theorem mem_dedupFirst (l : List String) (x : String) (h : x ∈ l) :
    x ∈ dedupFirst l :=
  mem_dedupFirstAux [] l x h (by simp)

theorem runCombs_length (db : Db) (p : String) (allExp : List ExpScoreRow)
    (allNames : List String) :
    ∀ combs, (runCombs db p allExp allNames combs).2 = none →
      (runCombs db p allExp allNames combs).1.length = combs.length := by
  intro combs
  induction combs with
  | nil => intro _; rfl
  | cons c cs ih =>
    intro h
    cases hpc : processComb db p allExp allNames c with
    | error e => simp [runCombs, hpc] at h
    | ok rg =>
      simp only [runCombs, hpc] at h ⊢
      simp [ih h]

/-- C9 counterexample: a varying-parameter name never observed in a
non-empty parameter table makes `_get_params` (and hence `plot_by_param`)
raise `KeyError` — a lookup error from `set.remove` — not the
invalid-argument `ValueError` the spec's error taxonomy prescribes. -/
theorem c9_keyerror_not_valueerror_cex :
    getParams dbC "lr" = .error .keyError ∧
    plotByParam dbC "lr" "acc" = ([], some .keyError) ∧
    PyErr.keyError ≠ PyErr.valueError := by
  exact ⟨by decide, by decide, by decide⟩

/-- C9 amended: for every varying-parameter name never observed in a
non-empty parameter table, `_get_params` raises `KeyError` (so
`plot_by_param` aborts with it before yielding anything) — it fails rather
than returning an empty result, but with a `KeyError`, not an
invalid-argument `ValueError`. -/
theorem c9_unknown_param_keyerror (db : Db) (p s : String)
    (hne : db.parameters ≠ [])
    (hno : ∀ r ∈ db.parameters, r.parameter_name ≠ p) :
    getParams db p = .error .keyError ∧
    plotByParam db p s = ([], some .keyError) := by
  have hnotmem : p ∉ dedupFirst (db.parameters.map (fun r => r.parameter_name)) := by
    intro hmem
    rcases List.mem_map.mp (dedupFirst_subset _ _ hmem) with ⟨r, hr, hrp⟩
    exact hno r hr hrp
  have hempty : db.parameters.isEmpty = false := by
    cases hp : db.parameters with
    | nil => exact absurd hp hne
    | cons a l => rfl
  have hg : getParams db p = .error .keyError := by
    simp [getParams, hempty, hnotmem]
  exact ⟨hg, by simp [plotByParam, hg]⟩

/-- C9 witness: at `dbC` (parameter table holding only `exp_name`) the
name `lr` yields the `KeyError` failure. -/
theorem c9_unknown_param_keyerror_witness :
    getParams dbC "lr" = .error .keyError ∧
    plotByParam dbC "lr" "acc" = ([], some .keyError) :=
  c9_unknown_param_keyerror dbC "lr" "acc" (by decide) (by decide)

/-- C10: if no `Parameter` row is named `exp_name`, `plot_by_param` aborts
with `KeyError` even when the varying parameter itself was observed (the
second `set.remove` fails); and conversely `_get_params` — the entry gate
of cohort building — succeeds only when a parameter named `exp_name` has
been recorded at least once. -/
theorem c10_exp_name_required :
    (∀ (db : Db) (p s : String),
        (∀ r ∈ db.parameters, r.parameter_name ≠ "exp_name") →
        (∃ r ∈ db.parameters, r.parameter_name = p) →
        plotByParam db p s = ([], some .keyError)) ∧
    (∀ (db : Db) (p : String) (l : List String),
        getParams db p = .ok l →
        ∃ r ∈ db.parameters, r.parameter_name = "exp_name") := by
  constructor
  · intro db p s hno ⟨r, hr, hrp⟩
    have hempty : db.parameters.isEmpty = false := by
      cases hp : db.parameters with
      | nil => rw [hp] at hr; simp at hr
      | cons a l => rfl
    have hpmem : p ∈ dedupFirst (db.parameters.map (fun t => t.parameter_name)) :=
      mem_dedupFirst _ _ (List.mem_map.mpr ⟨r, hr, hrp⟩)
    have hxn : "exp_name" ∉
        (dedupFirst (db.parameters.map (fun t => t.parameter_name))).erase p := by
      intro hmem
      rcases List.mem_map.mp
        (dedupFirst_subset _ _ (List.mem_of_mem_erase hmem)) with ⟨t, ht, htn⟩
      exact hno t ht htn
    have hg : getParams db p = .error .keyError := by
      simp [getParams, hempty, hpmem, hxn]
    simp [plotByParam, hg]
  · intro db p l hok
    by_cases he : db.parameters.isEmpty
    · simp [getParams, he] at hok
    · by_cases hp : p ∈ dedupFirst (db.parameters.map (fun t => t.parameter_name))
      · by_cases hx : "exp_name" ∈
            (dedupFirst (db.parameters.map (fun t => t.parameter_name))).erase p
        · rcases List.mem_map.mp
            (dedupFirst_subset _ _ (List.mem_of_mem_erase hx)) with ⟨t, ht, htn⟩
          exact ⟨t, ht, htn⟩
        · simp [getParams, he, hp, hx] at hok
      · simp [getParams, he, hp] at hok

/-- C10 witness: in `dbB` the parameter `lr` was observed but `exp_name`
never was, and `plot_by_param` aborts with `KeyError`. -/
theorem c10_exp_name_required_witness :
    plotByParam dbB "lr" "acc" = ([], some .keyError) :=
  c10_exp_name_required.1 dbB "lr" "acc" (by decide)
    ⟨⟨1, "lr", "0.1", 1⟩, by decide, rfl⟩

/-- C2 counterexample: in `dbA` the fixed parameter `a` takes the observed
values 1 and 2, but the combination `a = 2` matches no experiment in the
`acc` join (its only experiment has no `acc` score).  Instead of being
silently skipped, that zero-match combination aborts the generator with
`IndexError` (from `RunGroup.__init__` on the empty frame), after the
non-empty combination `a = 1` yielded its cohort. -/
theorem c2_zero_match_cex :
    getParams dbA "lr" = .ok ["a"] ∧
    getExperimentsScore dbA "acc" = .ok allExpA ∧
    combosOf dbA ["a"] = [["1"], ["2"]] ∧
    allExpA.filter (fun r => r.parameter_name = "a" ∧ r.parameter = "2") = [] ∧
    plotByParam dbA "lr" "acc" =
      ([⟨⟨["a"], [⟨1, "exp1", 1, [("a", "1")]⟩]⟩, "lr"⟩], some .indexError) := by
  exact ⟨by decide, by decide, by decide, by decide, by decide⟩

/-- C2 amended: `plot_by_param` never skips a combination — whenever the
generator runs to completion without raising, it yields exactly one cohort
per enumerated fixed-parameter-value combination, whether or not the
combination matches any experiment; a zero-match combination can instead
abort the whole generator with an error, as `c2_zero_match_cex` shows. -/
theorem c2_one_cohort_per_combination (db : Db) (p s : String)
    (params : List String) (h1 : getParams db p = .ok params)
    (h3 : (plotByParam db p s).2 = none) :
    (plotByParam db p s).1.length = (combosOf db params).length := by
  cases hE : getExperimentsScore db s with
  | error e => simp [plotByParam, h1, hE] at h3
  | ok allExp =>
    have hpp : plotByParam db p s =
        runCombs db p allExp (allNamesOf db params) (combosOf db params) := by
      simp [plotByParam, h1, hE]
    rw [hpp] at h3 ⊢
    exact runCombs_length _ _ _ _ _ h3

/-- C2 witness: `dbW` completes without error and yields exactly one cohort
for the single combination `a = 1`. -/
theorem c2_one_cohort_per_combination_witness :
    (plotByParam dbW "lr" "acc").1.length = (combosOf dbW ["a"]).length :=
  c2_one_cohort_per_combination dbW "lr" "acc" ["a"] (by decide) (by decide)

/-- C3 counterexample: with a single fixed parameter the merge loop of
`_merge_df_from_combinations` never runs, so the cohort yielded by
`plot_by_param` lacks the varying-parameter column entirely: in `dbA` the
yielded cohort's row has no `lr` column. -/
theorem c3_missing_column_cex :
    (plotByParam dbA "lr" "acc").1 =
      [⟨⟨["a"], [⟨1, "exp1", 1, [("a", "1")]⟩]⟩, "lr"⟩] ∧
    ∀ rg ∈ (plotByParam dbA "lr" "acc").1, ∀ row ∈ rg.df.rows,
      lookupAssoc row.extra "lr" = none := by
  exact ⟨by decide, by decide⟩

theorem setAssoc_lookup {α : Type} :
    ∀ (l : List (String × α)) (c : String) (v : α),
      lookupAssoc (setAssoc l c v) c = some v := by
  intro l c v
  induction l with
  | nil => simp [setAssoc, lookupAssoc]
  | cons kv rest ih =>
    by_cases h : kv.1 = c
    · simp [setAssoc, lookupAssoc, h]
    · simp [setAssoc, lookupAssoc, h, ih]

theorem attachRows_spec (db : Db) (p : String) :
    ∀ (rows rows' : List CombRow), attachRows db p rows = .ok rows' →
      ∀ r' ∈ rows', ∃ r ∈ rows, ∃ v,
        fetchOnParam db r.id_experiment p = some v ∧ r' = setCol r p v := by
  intro rows
  induction rows with
  | nil =>
    intro rows' h r' hr'
    simp only [attachRows] at h
    injection h with h
    subst h
    simp at hr'
  | cons r rest ih =>
    intro rows' h r' hr'
    simp only [attachRows] at h
    cases hf : fetchOnParam db r.id_experiment p with
    | none => rw [hf] at h; exact Except.noConfusion h
    | some v =>
      rw [hf] at h
      cases ha : attachRows db p rest with
      | error e => rw [ha] at h; exact Except.noConfusion h
      | ok rest' =>
        rw [ha] at h
        injection h with h
        subst h
        rcases List.mem_cons.mp hr' with h1 | h2
        · exact ⟨r, List.mem_cons_self _ _, v, hf, h1⟩
        · rcases ih rest' ha r' h2 with ⟨t, ht, w, hw, hr⟩
          exact ⟨t, List.mem_cons_of_mem _ ht, w, hw, hr⟩

theorem mergeStep_attached (db : Db) (p : String) (acc d acc' : CombDf)
    (h : mergeStep db p acc d = .ok acc') :
    acc' = acc ∨ attachedOk db p acc' := by
  unfold mergeStep at h
  by_cases he : (innerMerge acc d).rows.isEmpty
  · rw [if_pos he] at h
    injection h with h
    exact Or.inl h.symm
  · rw [if_neg he] at h
    cases ha : attachRows db p (innerMerge acc d).rows with
    | error e => rw [ha] at h; exact Except.noConfusion h
    | ok rows' =>
      rw [ha] at h
      injection h with h
      subst h
      refine Or.inr ?_
      intro row hrow
      rcases attachRows_spec db p _ _ ha row hrow with ⟨r, _, v, hv, hr⟩
      refine ⟨v, ?_, ?_⟩
      · rw [hr]; exact hv
      · rw [hr]
        exact setAssoc_lookup r.extra p v

theorem mergeFold_attached (db : Db) (p : String) (d : CombDf) :
    ∀ (ds : List CombDf) (acc r : CombDf),
      mergeFold db p acc ds = .ok r → (acc = d ∨ attachedOk db p acc) →
      r = d ∨ attachedOk db p r := by
  intro ds
  induction ds with
  | nil =>
    intro acc r h hacc
    simp only [mergeFold] at h
    injection h with h
    exact h ▸ hacc
  | cons e es ih =>
    intro acc r h hacc
    simp only [mergeFold] at h
    cases hms : mergeStep db p acc e with
    | error err => rw [hms] at h; exact Except.noConfusion h
    | ok acc' =>
      rw [hms] at h
      refine ih acc' r h ?_
      rcases mergeStep_attached db p acc e acc' hms with h1 | h2
      · exact h1 ▸ hacc
      · exact Or.inr h2

/-- C3 amended: a merged frame returned by `_merge_df_from_combinations`
either is the first filtered frame returned unchanged — which happens
whenever there are fewer than two fixed parameters, and also when every
merge against it came up empty — and then carries no varying-parameter
column (see `c3_missing_column_cex`), or went through at least one
non-empty merge, in which case every surviving row carries the
varying-parameter column holding that experiment's recorded value, fetched
by experiment id and parameter name.  (The hypotheses keep the varying
parameter distinct from the three fixed column names, the domain on which
the per-row column model is faithful to the dataframe.) -/
theorem c3_varying_param_attached (db : Db) (p : String) (d : CombDf)
    (ds : List CombDf) (r : CombDf)
    (_hp1 : p ≠ "id_experiment") (_hp2 : p ≠ "experiment_name")
    (_hp3 : p ≠ "score")
    (hm : mergeDfs db p (d :: ds) = .ok (some r)) :
    r = d ∨ attachedOk db p r := by
  simp only [mergeDfs] at hm
  cases hf : mergeFold db p d ds with
  | error e => rw [hf] at hm; exact Except.noConfusion hm
  | ok r' =>
    rw [hf] at hm
    injection hm with hm
    injection hm with hm
    subst hm
    exact mergeFold_attached db p d ds d r' hf (Or.inl rfl)

/-- C3 witness: on `dbV` the two-fixed-parameter merge `[a = 1, b = 1]`
produces the frame `rV`, whose every row carries the `lr` column with that
experiment's recorded `lr` value. -/
theorem c3_varying_param_attached_witness :
    rV = dfaV ∨ attachedOk dbV "lr" rV :=
  c3_varying_param_attached dbV "lr" dfaV [dfbV] rV
    (by decide) (by decide) (by decide) (by decide)

/-- C4: in `'max'` mode with a positive limit `k` within the number of
matching score rows, `get_best_scores` yields exactly `k` records — the
expansions of the selected score rows — whose score values are
non-increasing (rank 1 first), and every selected score value is at least
every non-selected matching score value (so all tied values precede any
smaller value up to the tie order, which the order-by leaves free). -/
theorem c4_descending_top_k (db : Db) (m : String) (k : Int)
    (hk : 0 < k) (hcount : k.toNat ≤ (matchingScores db m).length) :
    ∃ l, getBestScores db "max" m k = .ok l ∧
      l = (sqlLimit k (orderedScores db "max" m)).map
            (fun r => mkRecord db r.experiment) ∧
      l.length = k.toNat ∧
      ((sqlLimit k (orderedScores db "max" m)).map (fun r => r.score)).Sorted
        (fun a b => b ≤ a) ∧
      ∃ rest,
        ((matchingScores db m).map (fun r => r.score)).Perm
          (((sqlLimit k (orderedScores db "max" m)).map (fun r => r.score)) ++ rest) ∧
        ∀ b ∈ rest,
          ∀ a ∈ (sqlLimit k (orderedScores db "max" m)).map (fun r => r.score),
            b ≤ a := by
  have hnn : ¬ (k < 0) := not_lt.mpr hk.le
  have hos : orderedScores db "max" m =
      List.insertionSort scoreDesc (matchingScores db m) := by
    simp [orderedScores]
  have hperm : (List.insertionSort scoreDesc (matchingScores db m)).Perm
      (matchingScores db m) := List.perm_insertionSort _ _
  have hsorted : List.Sorted scoreDesc
      (List.insertionSort scoreDesc (matchingScores db m)) :=
    List.sorted_insertionSort _ _
  have hlen : (List.insertionSort scoreDesc (matchingScores db m)).length =
      (matchingScores db m).length := hperm.length_eq
  have hlim : sqlLimit k (orderedScores db "max" m) =
      (List.insertionSort scoreDesc (matchingScores db m)).take k.toNat := by
    rw [hos]; simp [sqlLimit, hnn]
  have htad := List.take_append_drop k.toNat
    (List.insertionSort scoreDesc (matchingScores db m))
  have hsplit : List.Pairwise scoreDesc
      ((List.insertionSort scoreDesc (matchingScores db m)).take k.toNat ++
       (List.insertionSort scoreDesc (matchingScores db m)).drop k.toNat) := by
    rw [htad]; exact hsorted
  rcases List.pairwise_append.mp hsplit with ⟨hpt, _, hcross⟩
  refine ⟨_, by simp [getBestScores], rfl, ?_, ?_, ?_⟩
  · rw [hlim, List.length_map, List.length_take, hlen]
    exact Nat.min_eq_left hcount
  · rw [hlim]
    exact (List.pairwise_map).mpr hpt
  · refine ⟨((List.insertionSort scoreDesc (matchingScores db m)).drop k.toNat).map
      (fun r => r.score), ?_, ?_⟩
    · rw [hlim, ← List.map_append, htad]
      exact (hperm.map (fun r => r.score)).symm
    · intro b hb a ha
      rw [hlim] at ha
      rcases List.mem_map.mp hb with ⟨rb, hrb, hbv⟩
      rcases List.mem_map.mp ha with ⟨ra, hra, hav⟩
      rw [← hbv, ← hav]
      exact hcross ra hra rb hrb

/-- C4 witness: `db4` holds `acc` scores 9, 7, 8; the top-2 query returns
2 records in non-increasing score order covering the 2 largest values. -/
theorem c4_descending_top_k_witness :
    ∃ l, getBestScores db4 "max" "acc" 2 = .ok l ∧
      l = (sqlLimit 2 (orderedScores db4 "max" "acc")).map
            (fun r => mkRecord db4 r.experiment) ∧
      l.length = (2 : Int).toNat ∧
      ((sqlLimit 2 (orderedScores db4 "max" "acc")).map (fun r => r.score)).Sorted
        (fun a b => b ≤ a) ∧
      ∃ rest,
        ((matchingScores db4 "acc").map (fun r => r.score)).Perm
          (((sqlLimit 2 (orderedScores db4 "max" "acc")).map (fun r => r.score)) ++ rest) ∧
        ∀ b ∈ rest,
          ∀ a ∈ (sqlLimit 2 (orderedScores db4 "max" "acc")).map (fun r => r.score),
            b ≤ a :=
  c4_descending_top_k db4 "acc" 2 (by decide) (by decide)

theorem addScoreTo_keys (d : List (String × List ℚ)) (n : String) (s : ℚ) :
    (addScoreTo d n s).map Prod.fst =
      if n ∈ d.map Prod.fst then d.map Prod.fst else d.map Prod.fst ++ [n] := by
  induction d with
  | nil => simp [addScoreTo]
  | cons kv rest ih =>
    obtain ⟨k, v⟩ := kv
    by_cases h : k = n
    · subst h
      simp [addScoreTo]
    · simp only [addScoreTo, if_neg h, List.map_cons]
      rw [ih]
      by_cases h2 : n ∈ rest.map Prod.fst
      · simp [h2, List.mem_cons, Ne.symm h]
      · simp [h2, List.mem_cons, Ne.symm h]

theorem mem_addScoreTo_keys (d : List (String × List ℚ)) (n m : String) (s : ℚ) :
    m ∈ (addScoreTo d n s).map Prod.fst ↔ m ∈ d.map Prod.fst ∨ m = n := by
  rw [addScoreTo_keys]
  by_cases h : n ∈ d.map Prod.fst
  · rw [if_pos h]
    constructor
    · exact Or.inl
    · rintro (h1 | h1)
      · exact h1
      · exact h1 ▸ h
  · rw [if_neg h]
    simp

theorem groupFold_keys_mem (xs : List (String × ℚ)) :
    ∀ (acc : List (String × List ℚ)) (n : String),
      n ∈ (xs.foldl (fun d x => addScoreTo d x.1 x.2) acc).map Prod.fst ↔
        n ∈ acc.map Prod.fst ∨ n ∈ xs.map Prod.fst := by
  induction xs with
  | nil => intro acc n; simp
  | cons x rest ih =>
    intro acc n
    simp only [List.foldl_cons]
    rw [ih (addScoreTo acc x.1 x.2) n, mem_addScoreTo_keys]
    simp only [List.map_cons, List.mem_cons]
    tauto

theorem groupFold_keys_sorted (xs : List (String × ℚ)) :
    ∀ (acc : List (String × List ℚ)),
      List.Pairwise labelRel xs →
      (acc.map Prod.fst).Sorted (· < ·) →
      (∀ k ∈ acc.map Prod.fst, ∀ x ∈ xs, k ≤ x.1) →
      ((xs.foldl (fun d x => addScoreTo d x.1 x.2) acc).map Prod.fst).Sorted
        (· < ·) := by
  induction xs with
  | nil => intro acc _ hs _; exact hs
  | cons x rest ih =>
    intro acc hpw hs hinv
    rcases List.pairwise_cons.mp hpw with ⟨hx, hrest⟩
    simp only [List.foldl_cons]
    refine ih (addScoreTo acc x.1 x.2) hrest ?_ ?_
    · rw [addScoreTo_keys]
      by_cases hm : x.1 ∈ acc.map Prod.fst
      · rw [if_pos hm]; exact hs
      · rw [if_neg hm]
        refine List.pairwise_append.mpr ⟨hs, List.pairwise_singleton _ _, ?_⟩
        intro a ha b hb
        rcases List.mem_singleton.mp hb with rfl
        refine lt_of_le_of_ne (hinv a ha x (List.mem_cons_self _ _)) ?_
        intro hax
        exact hm (hax ▸ ha)
    · intro k hk y hy
      rcases (mem_addScoreTo_keys acc x.1 k x.2).mp hk with h1 | h1
      · exact hinv k h1 y (List.mem_cons_of_mem _ hy)
      · exact h1 ▸ hx y hy

theorem addScoreTo_lookup (d : List (String × List ℚ)) (n m : String) (s : ℚ) :
    lookupAssoc (addScoreTo d n s) m =
      if m = n then some ((lookupAssoc d m).getD [] ++ [s])
      else lookupAssoc d m := by
  induction d with
  | nil =>
    by_cases h : m = n
    · subst h; simp [addScoreTo, lookupAssoc]
    · have h2 : ¬ (n = m) := fun he => h (Eq.symm he)
      simp [addScoreTo, lookupAssoc, h, h2]
  | cons kv rest ih =>
    obtain ⟨k, v⟩ := kv
    by_cases hkn : k = n
    · subst hkn
      by_cases hmk : m = k
      · subst hmk; simp [addScoreTo, lookupAssoc]
      · have hkm : ¬ (k = m) := fun he => hmk (Eq.symm he)
        simp [addScoreTo, lookupAssoc, hmk, hkm]
    · by_cases hkm : k = m
      · subst hkm
        have hmn : ¬ (k = n) := hkn
        simp [addScoreTo, lookupAssoc, hkn, hmn]
      · simp [addScoreTo, lookupAssoc, hkn, hkm, ih]

theorem groupFold_lookup_some (xs : List (String × ℚ)) :
    ∀ (acc : List (String × List ℚ)) (n : String) (v : List ℚ),
      lookupAssoc acc n = some v →
      lookupAssoc (xs.foldl (fun d x => addScoreTo d x.1 x.2) acc) n =
        some (v ++ (xs.filter (fun x => x.1 = n)).map Prod.snd) := by
  induction xs with
  | nil => intro acc n v h; simpa using h
  | cons x rest ih =>
    intro acc n v h
    simp only [List.foldl_cons]
    by_cases hxn : x.1 = n
    · have hstep : lookupAssoc (addScoreTo acc x.1 x.2) n = some (v ++ [x.2]) := by
        rw [addScoreTo_lookup, if_pos hxn.symm, h]
        rfl
      rw [ih (addScoreTo acc x.1 x.2) n (v ++ [x.2]) hstep]
      simp [List.filter_cons, hxn]
    · have hstep : lookupAssoc (addScoreTo acc x.1 x.2) n = some v := by
        rw [addScoreTo_lookup, if_neg (fun he => hxn (Eq.symm he))]
        exact h
      rw [ih (addScoreTo acc x.1 x.2) n v hstep]
      simp [List.filter_cons, hxn]

theorem groupFold_lookup_none (xs : List (String × ℚ)) :
    ∀ (acc : List (String × List ℚ)) (n : String),
      lookupAssoc acc n = none → n ∈ xs.map Prod.fst →
      lookupAssoc (xs.foldl (fun d x => addScoreTo d x.1 x.2) acc) n =
        some ((xs.filter (fun x => x.1 = n)).map Prod.snd) := by
  induction xs with
  | nil => intro acc n _ hmem; simp at hmem
  | cons x rest ih =>
    intro acc n hnone hmem
    simp only [List.foldl_cons]
    by_cases hxn : x.1 = n
    · have hstep : lookupAssoc (addScoreTo acc x.1 x.2) n = some [x.2] := by
        rw [addScoreTo_lookup, if_pos hxn.symm, hnone]
        rfl
      rw [groupFold_lookup_some rest (addScoreTo acc x.1 x.2) n [x.2] hstep]
      simp [List.filter_cons, hxn]
    · have hstep : lookupAssoc (addScoreTo acc x.1 x.2) n = none := by
        rw [addScoreTo_lookup, if_neg (fun he => hxn (Eq.symm he))]
        exact hnone
      have hmem' : n ∈ rest.map Prod.fst := by
        rw [List.map_cons] at hmem
        rcases List.mem_cons.mp hmem with h1 | h1
        · exact absurd (Eq.symm h1) hxn
        · exact h1
      rw [ih (addScoreTo acc x.1 x.2) n hstep hmem']
      simp [List.filter_cons, hxn]

theorem lookupAssoc_of_mem_nodup :
    ∀ (d : List (String × List ℚ)) (k : String) (v : List ℚ),
      (d.map Prod.fst).Nodup → (k, v) ∈ d → lookupAssoc d k = some v := by
  intro d
  induction d with
  | nil => intro k v _ hmem; simp at hmem
  | cons kv rest ih =>
    intro k v hnd hmem
    obtain ⟨k', v'⟩ := kv
    rw [List.map_cons] at hnd
    rcases List.nodup_cons.mp hnd with ⟨hk', hnd'⟩
    rcases List.mem_cons.mp hmem with h1 | h1
    · injection h1 with ha hb
      simp [lookupAssoc, ha.symm, hb]
    · by_cases he : k' = k
      · subst he
        exact absurd (List.mem_map.mpr ⟨(k', v), h1, rfl⟩) hk'
      · simp only [lookupAssoc, if_neg he]
        exact ih k v hnd' h1

theorem labeled_filter_map ( p : String) (c : String) :
    ∀ rows : List (String × ℚ),
      (((rows.map (fun r => (mkLabel p r.1, r.2))).filter
          (fun x => x.1 = c)).map Prod.snd) =
        ((rows.filter (fun r => mkLabel p r.1 = c)).map Prod.snd) := by
  intro rows
  induction rows with
  | nil => simp
  | cons r rest ih =>
    by_cases h : mkLabel p r.1 = c
    · simp [List.filter_cons, h, ih]
    · simp [List.filter_cons, h, ih]

theorem pyMean_perm {l1 l2 : List ℚ} (h : l1.Perm l2) : pyMean l1 = pyMean l2 := by
  unfold pyMean
  rw [h.sum_eq, h.length_eq]

/-- C6: for a cohort with at least 2 rows, the plotted series has exactly
one point per distinct label `varyingParam + "_" + value`, the labels
appear in non-decreasing lexicographic string order, and each point's value
is the arithmetic mean of all scores sharing that label. -/
theorem c6_label_mean_series ( p : String) (rows : List (String × ℚ))
    (h2 : 2 ≤ rows.length) :
    ∃ series, runGroupPlot p rows = some series ∧
      (series.map Prod.fst).Nodup ∧
      (∀ c, c ∈ series.map Prod.fst ↔ c ∈ rows.map (fun r => mkLabel p r.1)) ∧
      (series.map Prod.fst).Sorted (· ≤ ·) ∧
      ∀ q ∈ series,
        q.2 = pyMean ((rows.filter (fun r => mkLabel p r.1 = q.1)).map Prod.snd) := by
  have hguard : ¬ (rows.length < 2) := not_lt.mpr h2
  have hps : plotSeries p rows =
      (groupScores (List.insertionSort labelRel
        (rows.map (fun r => (mkLabel p r.1, r.2))))).map
          (fun kv => (kv.1, pyMean kv.2)) := rfl
  have hgs : groupScores (List.insertionSort labelRel
      (rows.map (fun r => (mkLabel p r.1, r.2)))) =
      (List.insertionSort labelRel
        (rows.map (fun r => (mkLabel p r.1, r.2)))).foldl
          (fun d x => addScoreTo d x.1 x.2) [] := rfl
  have hsorted_in : List.Pairwise labelRel
      (List.insertionSort labelRel (rows.map (fun r => (mkLabel p r.1, r.2)))) :=
    List.sorted_insertionSort labelRel _
  have hkeys : (plotSeries p rows).map Prod.fst =
      (groupScores (List.insertionSort labelRel
        (rows.map (fun r => (mkLabel p r.1, r.2))))).map Prod.fst := by
    rw [hps, List.map_map]
    rfl
  have hks : ((groupScores (List.insertionSort labelRel
      (rows.map (fun r => (mkLabel p r.1, r.2))))).map Prod.fst).Sorted
        (· < ·) := by
    rw [hgs]
    refine groupFold_keys_sorted _ [] hsorted_in (by simp) ?_
    intro k hk
    simp at hk
  have hnd : ((groupScores (List.insertionSort labelRel
      (rows.map (fun r => (mkLabel p r.1, r.2))))).map Prod.fst).Nodup :=
    List.Pairwise.imp (fun h => ne_of_lt h) hks
  have hpermlab : (List.insertionSort labelRel
      (rows.map (fun r => (mkLabel p r.1, r.2)))).Perm
        (rows.map (fun r => (mkLabel p r.1, r.2))) :=
    List.perm_insertionSort labelRel _
  refine ⟨plotSeries p rows, by simp [runGroupPlot, hguard], ?_, ?_, ?_, ?_⟩
  · rw [hkeys]; exact hnd
  · intro c
    rw [hkeys]
    have h1 : c ∈ (groupScores (List.insertionSort labelRel
        (rows.map (fun r => (mkLabel p r.1, r.2))))).map Prod.fst ↔
        c ∈ (List.insertionSort labelRel
          (rows.map (fun r => (mkLabel p r.1, r.2)))).map Prod.fst := by
      rw [hgs, groupFold_keys_mem]
      simp
    rw [h1, (hpermlab.map Prod.fst).mem_iff]
    rw [List.map_map]
    constructor
    · intro h; exact h
    · intro h; exact h
  · rw [hkeys]
    exact List.Pairwise.imp le_of_lt hks
  · intro q hq
    rw [hps] at hq
    rcases List.mem_map.mp hq with ⟨kv, hkv, hqe⟩
    obtain ⟨k0, v0⟩ := kv
    have hlook : lookupAssoc (groupScores (List.insertionSort labelRel
        (rows.map (fun r => (mkLabel p r.1, r.2))))) k0 = some v0 :=
      lookupAssoc_of_mem_nodup _ k0 v0 hnd hkv
    have hk0mem : k0 ∈ (List.insertionSort labelRel
        (rows.map (fun r => (mkLabel p r.1, r.2)))).map Prod.fst := by
      have : k0 ∈ (groupScores (List.insertionSort labelRel
          (rows.map (fun r => (mkLabel p r.1, r.2))))).map Prod.fst :=
        List.mem_map.mpr ⟨(k0, v0), hkv, rfl⟩
      rw [hgs, groupFold_keys_mem] at this
      simpa using this
    have hlook2 : lookupAssoc (groupScores (List.insertionSort labelRel
        (rows.map (fun r => (mkLabel p r.1, r.2))))) k0 =
        some (((List.insertionSort labelRel
          (rows.map (fun r => (mkLabel p r.1, r.2)))).filter
            (fun x => x.1 = k0)).map Prod.snd) := by
      rw [hgs]
      exact groupFold_lookup_none _ [] k0 rfl hk0mem
    have hv0 : v0 = ((List.insertionSort labelRel
        (rows.map (fun r => (mkLabel p r.1, r.2)))).filter
          (fun x => x.1 = k0)).map Prod.snd := by
      have := hlook.symm.trans hlook2
      injection this
    have hmean : pyMean v0 =
        pyMean ((rows.filter (fun r => mkLabel p r.1 = k0)).map Prod.snd) := by
      rw [hv0]
      have hpf : (((List.insertionSort labelRel
          (rows.map (fun r => (mkLabel p r.1, r.2)))).filter
            (fun x => x.1 = k0)).map Prod.snd).Perm
          (((rows.map (fun r => (mkLabel p r.1, r.2))).filter
            (fun x => x.1 = k0)).map Prod.snd) :=
        (hpermlab.filter _).map Prod.snd
      rw [pyMean_perm hpf, labeled_filter_map p k0 rows]
    rw [← hqe]
    simpa using hmean

/-- C6 witness: the spec's own example — two rows with varying-parameter
value `0.1` and scores 0.80 and 0.90 — instantiates the series theorem
(the single label is `lr_0.1` and its value the mean 0.85). -/
theorem c6_label_mean_series_witness :
    ∃ series,
      runGroupPlot "lr" [("0.1", 4/5), ("0.1", 9/10)] = some series ∧
      (series.map Prod.fst).Nodup ∧
      (∀ c, c ∈ series.map Prod.fst ↔
        c ∈ [("0.1", (4 : ℚ)/5), ("0.1", 9/10)].map (fun r => mkLabel "lr" r.1)) ∧
      (series.map Prod.fst).Sorted (· ≤ ·) ∧
      ∀ q ∈ series,
        q.2 = pyMean (([("0.1", (4 : ℚ)/5), ("0.1", 9/10)].filter
          (fun r => mkLabel "lr" r.1 = q.1)).map Prod.snd) :=
  c6_label_mean_series "lr" [("0.1", 4/5), ("0.1", 9/10)] (by decide)
